import Mathlib

/-!
Verification development for the Tiny FOB link-redirection service.

The repository ships several variants of the application entry point.
The hardened variant (the one containing the Destination Validator
`isAllowedDest`, the header-only `adminOK` check, and the admin
query/export routes) is embedded as the main request pipeline
(`handle`).  The legacy variant (the plain `index.js`, which has no
destination validation, a `passFrom` credential extractor, and the
unauthenticated `/admin/_envcheck` and `/admin/_dbcheck` debug
routes) is embedded by the `goHandlerLegacy`, `passFrom`,
`killLegacy`, `envcheckHandler` and `dbcheckHandler` definitions.

Machine/environment aspects are modelled as follows: the Postgres
pool is a three-valued `PoolMode` (absent, reachable, failing); the
durable click table is the in-memory list `ServerState.clicks`
(insertion order = id order); the express middleware chain is the
ordered if-chain in `handle`, in the exact registration order of the
source file; the 60-second rate-limit window is modelled as a single
window (per-identity hit counters, no time passage).
-/

namespace TinyFob

/-! ### Character-list string utilities (kernel-reducible) -/

/-- JS `a || b` for an optional string: empty string and absence are falsy. -/
def jsOrString (v : Option String) (d : String) : String :=
  match v with
  | none => d
  | some s => if s = "" then d else s

/-- JS truthiness of an optional string. -/
def jsTruthy (v : Option String) : Bool :=
  match v with
  | none => false
  | some s => !(s == "")

/-- JS `a || b` where both operands are optional strings. -/
def jsOrOption (a b : Option String) : Option String :=
  if jsTruthy a = true then a else b

/-- Split a character list on a separator character (JS `String.split` on a
one-character separator: the empty input yields one empty field). -/
def splitOnChar (sep : Char) : List Char → List (List Char)
  | [] => [[]]
  | c :: cs =>
    let r := splitOnChar sep cs
    if c = sep then [] :: r
    else
      match r with
      | [] => [[c]]
      | h :: t => (c :: h) :: t

/-- Whitespace predicate for JS `String.trim`. -/
def isWs (c : Char) : Bool := c = ' ' || c = '\t' || c = '\n' || c = '\r'

/-- JS `String.trim` on a character list. -/
def trimChars (l : List Char) : List Char :=
  ((l.dropWhile isWs).reverse.dropWhile isWs).reverse

/-- JS `String.trim`. -/
def trimStr (s : String) : String := String.mk (trimChars s.data)

/-- JS `String.toLowerCase` (ASCII case folding). -/
def lowerStr (s : String) : String := String.mk (s.data.map Char.toLower)

/-- JS `String.split(",")`. -/
def splitComma (s : String) : List String :=
  (splitOnChar ',' s.data).map String.mk

/-- Postgres `left(s, n)` / truncation to the first `n` characters. -/
def takeStr (n : Nat) (s : String) : String := String.mk (s.data.take n)

/-- Pattern-prefix test on character lists (`leadsWith pat l` holds when
`pat` is a prefix of `l`). -/
def leadsWith : List Char → List Char → Bool
  | [], _ => true
  | _ :: _, [] => false
  | p :: ps, c :: cs => p == c && leadsWith ps cs

/-- JS `String.startsWith`, via `leadsWith` on the underlying characters. -/
def strStartsWith (s pat : String) : Bool := leadsWith pat.data s.data

theorem leadsWith_iff (pat : List Char) : ∀ l : List Char,
    leadsWith pat l = true ↔ ∃ t, l = pat ++ t := by
  induction pat with
  | nil =>
    intro l
    simp [leadsWith]
  | cons p ps ih =>
    intro l
    cases l with
    | nil =>
      simp [leadsWith]
    | cons c cs =>
      simp only [leadsWith, Bool.and_eq_true, beq_iff_eq, ih, List.cons_append,
        List.cons.injEq]
      constructor
      · rintro ⟨hpc, t, ht⟩
        exact ⟨t, hpc.symm, ht⟩
      · rintro ⟨t, hcp, ht⟩
        exact ⟨hcp.symm, t, ht⟩

/-! ### The WHATWG URL parser (Node `new URL`), restricted to the two
fields the validator reads.

Modelled from the external `url` dependency (not repository code): an
absolute-URL parse that produces `protocol` (lower-cased scheme plus
`":"`) and `hostname` (lower-cased, userinfo and port stripped) for the
special schemes `http`/`https`, produces an empty `hostname` for other
schemes, and fails (JS: throws, here: `none`) when no scheme is present
or when a special-scheme URL has an empty or malformed host. -/

structure JSURL where
  protocol : String
  hostname : String
deriving DecidableEq

/-- Scheme characters after the first (ASCII alphanumeric, `+`, `-`, `.`). -/
def isSchemeChar (c : Char) : Bool :=
  c.isAlphanum || c = '+' || c = '-' || c = '.'

/-- Scan the scheme up to the first `:`; fails when a non-scheme character
appears first or no colon exists. -/
def splitSchemeAux : List Char → Option (List Char × List Char)
  | [] => none
  | c :: cs =>
    if c = ':' then some ([], cs)
    else if isSchemeChar c then
      match splitSchemeAux cs with
      | none => none
      | some (sch, rest) => some (c :: sch, rest)
    else none

/-- Split off the scheme of an absolute URL (first character must be an
ASCII letter). -/
def splitScheme (s : String) : Option (String × String) :=
  match s.data with
  | [] => none
  | c :: _ =>
    if c.isAlpha then
      match splitSchemeAux s.data with
      | none => none
      | some (sch, rest) => some (String.mk sch, String.mk rest)
    else none

/-- Characters terminating the authority component. -/
def isHostDelim (c : Char) : Bool :=
  c = '/' || c = '?' || c = '#' || c = '\\'

/-- Authority component: everything up to the first delimiter. -/
def takeUntilDelim : List Char → List Char
  | [] => []
  | c :: cs => if isHostDelim c = true then [] else c :: takeUntilDelim cs

/-- Skip the slashes between scheme and authority. -/
def dropSlashes : List Char → List Char
  | [] => []
  | c :: cs => if c = '/' || c = '\\' then dropSlashes cs else c :: cs

/-- Strip the userinfo: keep only what follows the last `@`. -/
def afterLastAt : List Char → List Char
  | [] => []
  | c :: cs =>
    if cs.contains '@' then afterLastAt cs
    else if c = '@' then cs else c :: cs

/-- Strip the port: keep only what precedes the first `:`. -/
def takeUntilColon : List Char → List Char
  | [] => []
  | c :: cs => if c = ':' then [] else c :: takeUntilColon cs

/-- Code points that make a special-scheme host invalid. -/
def isForbiddenHostChar (c : Char) : Bool :=
  c = ' ' || c = '<' || c = '>' || c = '[' || c = ']' || c = '^' || c = '|'

/-- Node `new URL(raw)` restricted to `protocol`/`hostname`; `none` models a
thrown `TypeError`. -/
def parseURL (s : String) : Option JSURL :=
  match splitScheme s with
  | none => none
  | some (scheme, rest) =>
    let proto := lowerStr scheme ++ ":"
    if proto = "http:" ∨ proto = "https:" then
      let auth := takeUntilDelim (dropSlashes rest.data)
      let host := takeUntilColon (afterLastAt auth)
      if host = [] then none
      else if host.any isForbiddenHostChar then none
      else some ⟨proto, lowerStr (String.mk host)⟩
    else
      some ⟨proto, ""⟩

/-! ### Configuration (part_002 / hardened variant, CONFIGURATION section) -/

/-- Source: `const ADMIN = process.env.FOB_ADMIN_PASS || "testpass"`. -/
def ADMIN (env : Option String) : String := jsOrString env "testpass"

/-- Source: `DEST_HOST_ALLOWLIST = (process.env.DEST_HOST_ALLOWLIST || "")
.split(",").map(s => s.trim().toLowerCase()).filter(Boolean)`. -/
def DEST_HOST_ALLOWLIST (env : Option String) : List String :=
  (((splitComma (jsOrString env "")).map
    (fun s => lowerStr (trimStr s))).filter (fun s => s != ""))

/-- Source (hardened variant): header-only admin check
`adminOK(req) = req.get("x-admin-pass") === ADMIN`. -/
def adminOK (headerPass : Option String) (admin : String) : Bool :=
  headerPass == some admin

/-- Source (legacy `index.js`): `passFrom = (req) => (req.body && req.body.pass)
|| req.query.pass || req.get("x-admin-pass")`. -/
def passFrom (bodyPass queryPass headerPass : Option String) : Option String :=
  jsOrOption bodyPass (jsOrOption queryPass headerPass)

/-! ### Destination Validator (part_002, `isAllowedDest` and the ternary in
the `/go/:slug` handler) -/

/-- Source: `isAllowedDest(raw)` — parse, require scheme `http:`/`https:`,
then if the allowlist is non-empty require (lower-cased) hostname
membership; a parse failure is caught and yields `false`. -/
def isAllowedDest (allowlist : List String) (raw : String) : Bool :=
  match parseURL raw with
  | none => false
  | some u =>
    if u.protocol ≠ "https:" ∧ u.protocol ≠ "http:" then false
    else if allowlist.length = 0 then true
    else allowlist.contains (lowerStr u.hostname)

/-- Source: `const dest = isAllowedDest(rawDest) ? rawDest :
"https://example.com"` — the Destination Validator of the spec. -/
def validateDest (allowlist : List String) (raw : String) : String :=
  if isAllowedDest allowlist raw = true then raw else "https://example.com"

/-! ### Data model -/

/-- One recorded redirect (hardened schema: `INSERT INTO clicks (slug, dest,
ip, ua)`); list position models the storage-assigned increasing `id`, and
`ts` is storage-assigned (excluded as an external concern). -/
structure ClickEvent where
  slug : String
  dest : String
  ip : String
  ua : String
deriving DecidableEq

/-- One recorded redirect in the legacy `index.js` schema
(`INSERT INTO clicks(ip, ua, slug, dest, qs)`). -/
structure LegacyClickEvent where
  ip : String
  ua : String
  slug : String
  dest : String
  qs : Option String
deriving DecidableEq

/-- Storage availability: `DATABASE_URL` unset (`pool = null`), reachable,
or configured but failing (every query throws). -/
inductive PoolMode where
  | noPool
  | okPool
  | failPool
deriving DecidableEq

/-- Startup configuration (immutable for the process lifetime). -/
structure Config where
  admin : String
  allowlist : List String
  pool : PoolMode
deriving DecidableEq

/-- Process state: the kill flag (`app.locals.killed`), the rate limiter
per-identity hit counters for the current window, and the durable click
log (insertion order = id order). -/
structure ServerState where
  killed : Bool
  rlHits : List (String × Nat)
  clicks : List ClickEvent
deriving DecidableEq

/-- An inbound HTTP request, restricted to the fields the handlers read. -/
structure Request where
  method : String
  path : String
  dest : Option String
  day : Option String
  queryPass : Option String
  bodyPass : Option String
  headerAdminPass : Option String
  xForwardedFor : Option String
  reqIp : String
  userAgent : Option String
deriving DecidableEq

/-- Response bodies, by shape (text, redirect Location, and the JSON/CSV
documents the handlers emit). -/
inductive Body where
  | text (s : String)
  | redirect (loc : String)
  | statusJson (ok : Bool) (clicks : Option Nat) (err : Option String)
  | rowsJson (rows : List ClickEvent)
  | statsJson (rows : List (String × Nat))
  | csv (rows : List ClickEvent)
  | envJson (hasDB hasAdminPass : Bool)
  | dbNowJson (now : String)
  | dbErrJson (err : String)
deriving DecidableEq

structure Response where
  status : Nat
  body : Body
deriving DecidableEq

def forbidden : Response := ⟨403, .text "forbidden"⟩

def unavailable : Response := ⟨503, .text "Service unavailable"⟩

def notFound : Response := ⟨404, .text "Not Found"⟩

/-- express-rate-limit default 429 rejection. -/
def rateLimited : Response := ⟨429, .text "Too many requests, please try again later."⟩

/-! ### Rate limiter (source: `goLimiter = rateLimit({windowMs: 60*1000,
max: 120, ...})`, mounted with `app.use("/go", goLimiter)`) -/

def windowMs : Nat := 60 * 1000

def goLimiterMax : Nat := 120

/-- Current-window hit count for a client identity. -/
def rlCount (hits : List (String × Nat)) (k : String) : Nat :=
  match hits.lookup k with
  | some n => n
  | none => 0

/-- Record one more hit for a client identity. -/
def rlBump (hits : List (String × Nat)) (k : String) : List (String × Nat) :=
  (k, rlCount hits k + 1) :: hits

/-! ### Handlers (hardened variant) -/

/-- Client identity resolution in the `/go/:slug` handler:
`(req.headers["x-forwarded-for"] || req.ip || "").split(",")[0].trim()`. -/
def clientIp (req : Request) : String :=
  let base := jsOrString req.xForwardedFor (jsOrString (some req.reqIp) "")
  trimStr (((splitOnChar ',' base.data).map String.mk).headD "")

/-- Health check (`GET /status`): counts clicks when the pool is reachable,
reports zero when the pool is absent, and reports `{ok:false, error}` (an
HTTP 200 JSON body) when the count query throws. -/
def statusResponse (cfg : Config) (st : ServerState) : Response :=
  match cfg.pool with
  | .noPool => ⟨200, .statusJson true (some 0) none⟩
  | .okPool => ⟨200, .statusJson true (some st.clicks.length) none⟩
  | .failPool => ⟨200, .statusJson false none (some "db error")⟩

/-- Express route-pattern match for `"/go/:slug"`: one further non-empty
path segment after `/go/`. -/
def goSlug? (path : String) : Option String :=
  if strStartsWith path "/go/" = true then
    let rest := path.data.drop 4
    if rest ≠ [] ∧ ¬ rest.contains '/' = true then some (String.mk rest) else none
  else none

/-- The hardened `GET /go/:slug` body: validate the destination, best-effort
insert (a failing insert is caught and swallowed), then `302` redirect. -/
def goHandler (cfg : Config) (st : ServerState) (req : Request) (slug : String) :
    Response × ServerState :=
  let rawDest := jsOrString req.dest "https://example.com"
  let dest := validateDest cfg.allowlist rawDest
  let ip := clientIp req
  let ua := jsOrString req.userAgent ""
  (⟨302, .redirect dest⟩,
   match cfg.pool with
   | .okPool => { st with clicks := st.clicks ++ [⟨slug, dest, ip, ua⟩] }
   | _ => st)

/-- Truncation used by `/admin/last` (`left(dest,60)`). -/
def truncDest (e : ClickEvent) : ClickEvent := { e with dest := takeStr 60 e.dest }

def countSlug (clicks : List ClickEvent) (s : String) : Nat :=
  (clicks.filter (fun e => e.slug == s)).length

def dedupSlugs : List String → List String
  | [] => []
  | s :: ss => if ss.contains s then dedupSlugs ss else s :: dedupSlugs ss

def insertDesc (p : String × Nat) : List (String × Nat) → List (String × Nat)
  | [] => [p]
  | q :: qs => if q.2 ≤ p.2 then p :: q :: qs else q :: insertDesc p qs

def sortDesc : List (String × Nat) → List (String × Nat)
  | [] => []
  | p :: ps => insertDesc p (sortDesc ps)

/-- `SELECT slug, count(*) AS hits FROM clicks GROUP BY slug ORDER BY hits
DESC` over the in-memory log. -/
def statsRows (clicks : List ClickEvent) : List (String × Nat) :=
  sortDesc ((dedupSlugs (clicks.map (fun e => e.slug))).map
    (fun s => (s, countSlug clicks s)))

/-- `GET /admin/export/day`: auth first; on a missing pool the query throws
(`pool.query` on `null`) and on a failing pool it throws, both caught as a
500; the UTC-day filter itself is a storage-engine projection (excluded as
external), so the reachable-pool branch returns the id-ordered log. -/
def exportDayHandler (cfg : Config) (st : ServerState) (req : Request) : Response :=
  if adminOK req.headerAdminPass cfg.admin = true then
    match cfg.pool with
    | .okPool => ⟨200, .csv st.clicks⟩
    | _ => ⟨500, .text "export error"⟩
  else forbidden

/-- `GET /admin/export`: auth first, then the most recent 1000 rows as CSV,
or a 500 when the query throws (missing or failing pool). -/
def exportHandler (cfg : Config) (st : ServerState) (req : Request) : Response :=
  if adminOK req.headerAdminPass cfg.admin = true then
    match cfg.pool with
    | .okPool => ⟨200, .csv (st.clicks.reverse.take 1000)⟩
    | _ => ⟨500, .text "error exporting CSV"⟩
  else forbidden

/-- `GET /admin/last`: auth first, then the 5 most recent rows with the
destination truncated to 60 characters. -/
def lastHandler (cfg : Config) (st : ServerState) (req : Request) : Response :=
  if adminOK req.headerAdminPass cfg.admin = true then
    match cfg.pool with
    | .okPool => ⟨200, .rowsJson ((st.clicks.reverse.take 5).map truncDest)⟩
    | _ => ⟨500, .dbErrJson "db error"⟩
  else forbidden

/-- `GET /admin/stats`: auth first, then per-slug counts in descending
order. -/
def statsHandler (cfg : Config) (st : ServerState) (req : Request) : Response :=
  if adminOK req.headerAdminPass cfg.admin = true then
    match cfg.pool with
    | .okPool => ⟨200, .statsJson (statsRows st.clicks)⟩
    | _ => ⟨500, .dbErrJson "db error"⟩
  else forbidden

/-- The hardened application pipeline, in the exact registration order of
the source: `GET /status`; the kill-switch middleware; `POST /admin/kill`
and `POST /admin/unkill`; `GET /`; the `/go`-mounted rate limiter and
`GET /go/:slug`; then the admin read routes. -/
def handle (cfg : Config) (st : ServerState) (req : Request) : Response × ServerState :=
  if req.method = "GET" ∧ req.path = "/status" then (statusResponse cfg st, st)
  else if st.killed = true ∧ strStartsWith req.path "/admin" = false then
    (unavailable, st)
  else if req.method = "POST" ∧ req.path = "/admin/kill" then
    if adminOK req.headerAdminPass cfg.admin = true then
      (⟨200, .text "killed"⟩, { st with killed := true })
    else (forbidden, st)
  else if req.method = "POST" ∧ req.path = "/admin/unkill" then
    if adminOK req.headerAdminPass cfg.admin = true then
      (⟨200, .text "un-killed"⟩, { st with killed := false })
    else (forbidden, st)
  else if req.method = "GET" ∧ req.path = "/" then
    (⟨200, .text "Tiny FOB is online and logging clicks."⟩, st)
  else if req.path = "/go" ∨ strStartsWith req.path "/go/" = true then
    let hits := rlCount st.rlHits req.reqIp + 1
    let st1 := { st with rlHits := rlBump st.rlHits req.reqIp }
    if goLimiterMax < hits then (rateLimited, st1)
    else
      match (if req.method = "GET" then goSlug? req.path else none) with
      | some slug => goHandler cfg st1 req slug
      | none => (notFound, st1)
  else if req.method = "GET" ∧ req.path = "/admin/export/day" then
    (exportDayHandler cfg st req, st)
  else if req.method = "GET" ∧ req.path = "/admin/export" then
    (exportHandler cfg st req, st)
  else if req.method = "GET" ∧ req.path = "/admin/last" then
    (lastHandler cfg st req, st)
  else if req.method = "GET" ∧ req.path = "/admin/stats" then
    (statsHandler cfg st req, st)
  else (notFound, st)

/-- Sequential processing of a request list. -/
def handleSeq (cfg : Config) (st : ServerState) : List Request → ServerState
  | [] => st
  | r :: rs => handleSeq cfg (handle cfg st r).2 rs

/-- The responses produced while sequentially processing a request list. -/
def handleResponses (cfg : Config) (st : ServerState) : List Request → List Response
  | [] => []
  | r :: rs => (handle cfg st r).1 :: handleResponses cfg (handle cfg st r).2 rs

/-! ### Legacy `index.js` fragments (cited by the claims) -/

/-- Legacy `GET /go/:slug` (plain `index.js`, lines 68-94): no Destination
Validator — the raw `?dest=` value (or the fallback when absent/empty) is
both recorded and used as the redirect target. -/
def goHandlerLegacy (pool : PoolMode) (clicks : List LegacyClickEvent)
    (req : Request) (slug : String) (qs : Option String) :
    Response × List LegacyClickEvent :=
  let dest := jsOrString req.dest "https://example.com"
  let ip := clientIp req
  let ua := jsOrString req.userAgent ""
  (⟨302, .redirect dest⟩,
   match pool with
   | .okPool => clicks ++ [⟨ip, ua, slug, dest, qs⟩]
   | _ => clicks)

/-- Legacy `POST /admin/kill`: credential via `passFrom` (body, then query,
then header). -/
def killLegacy (admin : String) (bodyPass queryPass headerPass : Option String)
    (killed : Bool) : Response × Bool :=
  if ¬ passFrom bodyPass queryPass headerPass = some admin then (forbidden, killed)
  else (⟨200, .text "killed"⟩, true)

/-- Legacy `GET /admin/_envcheck` (plain `index.js`, lines 115-120): a debug
route that reads no credential at all and reports which environment
variables are set. -/
def envcheckHandler (hasDB hasAdminPass : Bool) : Response :=
  ⟨200, .envJson hasDB hasAdminPass⟩

/-- Legacy `GET /admin/_dbcheck` (plain `index.js`, lines 122-130): a debug
route that reads no credential and probes the pool. -/
def dbcheckHandler (pool : PoolMode) (now : String) : Response :=
  match pool with
  | .noPool => ⟨500, .dbErrJson "no pool"⟩
  | .okPool => ⟨200, .dbNowJson now⟩
  | .failPool => ⟨500, .dbErrJson "db error"⟩

/-! ### Helper lemmas on the pipeline -/

theorem goSlug_pre {p s : String} (h : goSlug? p = some s) :
    strStartsWith p "/go/" = true := by
  by_cases hc : strStartsWith p "/go/" = true
  · exact hc
  · unfold goSlug? at h
    rw [if_neg hc] at h
    exact absurd h (by simp)

theorem no_admin_go {p : String} (h1 : strStartsWith p "/admin" = true)
    (h2 : strStartsWith p "/go/" = true) : False := by
  obtain ⟨t1, e1⟩ := (leadsWith_iff _ _).mp h1
  obtain ⟨t2, e2⟩ := (leadsWith_iff _ _).mp h2
  rw [e1] at e2
  have e3 : ('/' :: 'a' :: 'd' :: 'm' :: 'i' :: 'n' :: t1) =
      ('/' :: 'g' :: 'o' :: '/' :: t2) := e2
  simp only [List.cons.injEq] at e3
  exact absurd e3.2.1 (by decide)

theorem rlCount_bump_self (hits : List (String × Nat)) (k : String) :
    rlCount (rlBump hits k) k = rlCount hits k + 1 := by
  simp [rlCount, rlBump, List.lookup]

theorem goHandler_fst (cfg : Config) (st : ServerState) (r : Request) (slug : String) :
    (goHandler cfg st r slug).1 =
      ⟨302, .redirect (validateDest cfg.allowlist (jsOrString r.dest "https://example.com"))⟩ :=
  rfl

theorem goHandler_killed (cfg : Config) (st : ServerState) (r : Request) (slug : String) :
    ((goHandler cfg st r slug).2).killed = st.killed := by
  unfold goHandler
  cases cfg.pool <;> rfl

theorem goHandler_rlHits (cfg : Config) (st : ServerState) (r : Request) (slug : String) :
    ((goHandler cfg st r slug).2).rlHits = st.rlHits := by
  unfold goHandler
  cases cfg.pool <;> rfl

theorem goHandler_notOk (cfg : Config) (st : ServerState) (r : Request) (slug : String)
    (hp : cfg.pool ≠ .okPool) :
    goHandler cfg st r slug =
      (⟨302, .redirect (validateDest cfg.allowlist (jsOrString r.dest "https://example.com"))⟩,
       st) := by
  unfold goHandler
  cases hcp : cfg.pool
  · rfl
  · exact absurd hcp hp
  · rfl

theorem handle_status (cfg : Config) (st : ServerState) (r : Request)
    (hm : r.method = "GET") (hp : r.path = "/status") :
    handle cfg st r = (statusResponse cfg st, st) := by
  unfold handle
  rw [if_pos ⟨hm, hp⟩]

theorem handle_kill (cfg : Config) (st : ServerState) (r : Request)
    (hm : r.method = "POST") (hp : r.path = "/admin/kill") :
    handle cfg st r =
      (if adminOK r.headerAdminPass cfg.admin = true then
        (⟨200, .text "killed"⟩, { st with killed := true })
      else (forbidden, st)) := by
  unfold handle
  rw [if_neg (fun h => absurd (hm.symm.trans h.1) (by decide)),
    if_neg (fun h => absurd h.2 (by rw [hp]; decide)),
    if_pos ⟨hm, hp⟩]

theorem handle_unkill (cfg : Config) (st : ServerState) (r : Request)
    (hm : r.method = "POST") (hp : r.path = "/admin/unkill") :
    handle cfg st r =
      (if adminOK r.headerAdminPass cfg.admin = true then
        (⟨200, .text "un-killed"⟩, { st with killed := false })
      else (forbidden, st)) := by
  unfold handle
  rw [if_neg (fun h => absurd (hm.symm.trans h.1) (by decide)),
    if_neg (fun h => absurd h.2 (by rw [hp]; decide)),
    if_neg (fun h => absurd (hp.symm.trans h.2) (by decide)),
    if_pos ⟨hm, hp⟩]

theorem handle_go (cfg : Config) (st : ServerState) (r : Request) (slug : String)
    (hk : st.killed = false) (hm : r.method = "GET")
    (hs : goSlug? r.path = some slug) :
    handle cfg st r =
      (if goLimiterMax < rlCount st.rlHits r.reqIp + 1 then
        (rateLimited, { st with rlHits := rlBump st.rlHits r.reqIp })
      else goHandler cfg { st with rlHits := rlBump st.rlHits r.reqIp } r slug) := by
  have hpre : strStartsWith r.path "/go/" = true := goSlug_pre hs
  unfold handle
  rw [if_neg (fun h => absurd hpre (by rw [h.2]; decide)),
    if_neg (fun h => absurd h.1 (by rw [hk]; decide)),
    if_neg (fun h => absurd (hm.symm.trans h.1) (by decide)),
    if_neg (fun h => absurd (hm.symm.trans h.1) (by decide)),
    if_neg (fun h => absurd hpre (by rw [h.2]; decide)),
    if_pos (Or.inr hpre)]
  simp only [hm, eq_self_iff_true, if_true, hs]

theorem handle_admin_forbidden (cfg : Config) (st : ServerState) (r : Request)
    (hm : r.method = "GET")
    (hp : r.path = "/admin/export/day" ∨ r.path = "/admin/export" ∨
      r.path = "/admin/last" ∨ r.path = "/admin/stats")
    (ha : adminOK r.headerAdminPass cfg.admin = false) :
    handle cfg st r = (forbidden, st) := by
  have hauth : ¬ adminOK r.headerAdminPass cfg.admin = true := by
    rw [ha]; decide
  rcases hp with hp | hp | hp | hp
  · unfold handle
    rw [if_neg (fun h => absurd (hp.symm.trans h.2) (by decide)),
      if_neg (fun h => absurd h.2 (by rw [hp]; decide)),
      if_neg (fun h => absurd (hm.symm.trans h.1) (by decide)),
      if_neg (fun h => absurd (hm.symm.trans h.1) (by decide)),
      if_neg (fun h => absurd (hp.symm.trans h.2) (by decide)),
      if_neg (fun h => h.elim (fun e => absurd (hp.symm.trans e) (by decide))
        (fun hg => absurd hg (by rw [hp]; decide))),
      if_pos ⟨hm, hp⟩]
    unfold exportDayHandler
    rw [if_neg hauth]
  · unfold handle
    rw [if_neg (fun h => absurd (hp.symm.trans h.2) (by decide)),
      if_neg (fun h => absurd h.2 (by rw [hp]; decide)),
      if_neg (fun h => absurd (hm.symm.trans h.1) (by decide)),
      if_neg (fun h => absurd (hm.symm.trans h.1) (by decide)),
      if_neg (fun h => absurd (hp.symm.trans h.2) (by decide)),
      if_neg (fun h => h.elim (fun e => absurd (hp.symm.trans e) (by decide))
        (fun hg => absurd hg (by rw [hp]; decide))),
      if_neg (fun h => absurd (hp.symm.trans h.2) (by decide)),
      if_pos ⟨hm, hp⟩]
    unfold exportHandler
    rw [if_neg hauth]
  · unfold handle
    rw [if_neg (fun h => absurd (hp.symm.trans h.2) (by decide)),
      if_neg (fun h => absurd h.2 (by rw [hp]; decide)),
      if_neg (fun h => absurd (hm.symm.trans h.1) (by decide)),
      if_neg (fun h => absurd (hm.symm.trans h.1) (by decide)),
      if_neg (fun h => absurd (hp.symm.trans h.2) (by decide)),
      if_neg (fun h => h.elim (fun e => absurd (hp.symm.trans e) (by decide))
        (fun hg => absurd hg (by rw [hp]; decide))),
      if_neg (fun h => absurd (hp.symm.trans h.2) (by decide)),
      if_neg (fun h => absurd (hp.symm.trans h.2) (by decide)),
      if_pos ⟨hm, hp⟩]
    unfold lastHandler
    rw [if_neg hauth]
  · unfold handle
    rw [if_neg (fun h => absurd (hp.symm.trans h.2) (by decide)),
      if_neg (fun h => absurd h.2 (by rw [hp]; decide)),
      if_neg (fun h => absurd (hm.symm.trans h.1) (by decide)),
      if_neg (fun h => absurd (hm.symm.trans h.1) (by decide)),
      if_neg (fun h => absurd (hp.symm.trans h.2) (by decide)),
      if_neg (fun h => h.elim (fun e => absurd (hp.symm.trans e) (by decide))
        (fun hg => absurd hg (by rw [hp]; decide))),
      if_neg (fun h => absurd (hp.symm.trans h.2) (by decide)),
      if_neg (fun h => absurd (hp.symm.trans h.2) (by decide)),
      if_neg (fun h => absurd (hp.symm.trans h.2) (by decide)),
      if_pos ⟨hm, hp⟩]
    unfold statsHandler
    rw [if_neg hauth]

theorem statusResponse_status (cfg : Config) (st : ServerState) :
    (statusResponse cfg st).status = 200 := by
  unfold statusResponse
  cases cfg.pool <;> rfl

theorem exportDayHandler_status (cfg : Config) (st : ServerState) (r : Request) :
    (exportDayHandler cfg st r).status ≠ 503 := by
  unfold exportDayHandler
  split
  · cases cfg.pool <;> simp
  · simp [forbidden]

theorem exportHandler_status (cfg : Config) (st : ServerState) (r : Request) :
    (exportHandler cfg st r).status ≠ 503 := by
  unfold exportHandler
  split
  · cases cfg.pool <;> simp
  · simp [forbidden]

theorem lastHandler_status (cfg : Config) (st : ServerState) (r : Request) :
    (lastHandler cfg st r).status ≠ 503 := by
  unfold lastHandler
  split
  · cases cfg.pool <;> simp
  · simp [forbidden]

theorem statsHandler_status (cfg : Config) (st : ServerState) (r : Request) :
    (statsHandler cfg st r).status ≠ 503 := by
  unfold statsHandler
  split
  · cases cfg.pool <;> simp
  · simp [forbidden]

theorem handle_admin_not_503 (cfg : Config) (st : ServerState) (r : Request)
    (h : strStartsWith r.path "/admin" = true) :
    (handle cfg st r).1.status ≠ 503 := by
  unfold handle
  rw [if_neg (fun hh : st.killed = true ∧ strStartsWith r.path "/admin" = false =>
    absurd hh.2 (by rw [h]; decide))]
  split
  · show (statusResponse cfg st).status ≠ 503
    rw [statusResponse_status cfg st]
    decide
  · split
    · split <;> simp [forbidden]
    · split
      · split <;> simp [forbidden]
      · split
        · simp
        · split
          · split
            · dsimp only
              split
              · simp [rateLimited]
              · simp [goHandler_fst]
            · dsimp only
              split
              · simp [rateLimited]
              · simp [notFound]
          · split
            · exact exportDayHandler_status cfg st r
            · split
              · exact exportHandler_status cfg st r
              · split
                · exact lastHandler_status cfg st r
                · split
                  · exact statsHandler_status cfg st r
                  · simp [notFound]

theorem handle_ignores_query_body (cfg : Config) (st : ServerState) (r : Request)
    (q b : Option String) :
    handle cfg st { r with queryPass := q, bodyPass := b } = handle cfg st r := by
  obtain ⟨m, p, d, day, qp, bp, hdr, xff, ip, ua⟩ := r
  rfl

/-- A sequence of same-identity redirect requests. -/
def isGoReq (idv : String) (r : Request) : Prop :=
  r.method = "GET" ∧ (∃ s, goSlug? r.path = some s) ∧ r.reqIp = idv

theorem go_seq_invariant (cfg : Config) (idv : String) :
    ∀ (rs : List Request) (st : ServerState), st.killed = false →
    (∀ r ∈ rs, isGoReq idv r) →
    rlCount st.rlHits idv + rs.length ≤ goLimiterMax →
    ((∀ resp ∈ handleResponses cfg st rs, resp.status = 302) ∧
     (handleSeq cfg st rs).killed = false ∧
     rlCount (handleSeq cfg st rs).rlHits idv = rlCount st.rlHits idv + rs.length) := by
  intro rs
  induction rs with
  | nil =>
    intro st hk _ _
    refine ⟨?_, hk, by simp [handleSeq]⟩
    intro resp hresp
    simp [handleResponses] at hresp
  | cons r rs ih =>
    intro st hk hall hle
    simp only [List.length_cons] at hle
    obtain ⟨hm, ⟨slug, hs⟩, hip⟩ := hall r (List.mem_cons_self r rs)
    have hstep := handle_go cfg st r slug hk hm hs
    have hnot : ¬ goLimiterMax < rlCount st.rlHits r.reqIp + 1 := by
      rw [hip]
      unfold goLimiterMax at hle ⊢
      omega
    rw [if_neg hnot] at hstep
    have hk' : ((handle cfg st r).2).killed = false := by
      rw [hstep, goHandler_killed]
      exact hk
    have hrl : ((handle cfg st r).2).rlHits = rlBump st.rlHits r.reqIp := by
      rw [hstep, goHandler_rlHits]
    have hcount : rlCount ((handle cfg st r).2).rlHits idv =
        rlCount st.rlHits idv + 1 := by
      rw [hrl, hip, rlCount_bump_self]
    have ih' := ih ((handle cfg st r).2) hk'
      (fun x hx => hall x (List.mem_cons_of_mem r hx))
      (by rw [hcount]; unfold goLimiterMax at hle ⊢; omega)
    refine ⟨?_, ?_, ?_⟩
    · intro resp hresp
      unfold handleResponses at hresp
      rcases List.mem_cons.mp hresp with he | ht
      · rw [he, hstep, goHandler_fst]
      · exact ih'.1 resp ht
    · unfold handleSeq
      exact ih'.2.1
    · unfold handleSeq
      rw [ih'.2.2, hcount]
      simp only [List.length_cons]
      omega

theorem isAllowedDest_parse {allowlist : List String} {raw : String}
    (h : isAllowedDest allowlist raw = true) :
    ∃ u, parseURL raw = some u ∧ (u.protocol = "http:" ∨ u.protocol = "https:") := by
  unfold isAllowedDest at h
  cases hp : parseURL raw with
  | none =>
    rw [hp] at h
    simp at h
  | some u =>
    rw [hp] at h
    dsimp only at h
    refine ⟨u, rfl, ?_⟩
    by_cases hs : u.protocol ≠ "https:" ∧ u.protocol ≠ "http:"
    · rw [if_pos hs] at h
      exact absurd h (by decide)
    · push_neg at hs
      by_cases hh : u.protocol = "https:"
      · exact Or.inr hh
      · exact Or.inl (hs hh)

/-! ### Concrete fixtures used by the claim theorems -/

/-- The spec scenario request: `GET /go/promo?dest=https://evil.example`. -/
def reqPromoEvil : Request :=
  ⟨"GET", "/go/promo", some "https://evil.example", none, none, none, none, none,
   "9.9.9.9", some "UA"⟩

/-- Configuration with allowlist `["example.com"]` (parsed from the
environment string, as the source does) and reachable storage. -/
def cfgAllowExample : Config :=
  ⟨ADMIN none, DEST_HOST_ALLOWLIST (some "example.com"), .okPool⟩

/-- Fresh process state: live, no hits, empty click log. -/
def stInit : ServerState := ⟨false, [], []⟩

/-! ### Claim results -/

/-- C1 counterexample: the claim quantifies over every redirect response and
recorded ClickEvent, but the legacy `index.js` redirect handler (lines
68-94, cited by the claim) has no Destination Validator: on the claim's own
scenario input `GET /go/promo?dest=https://evil.example` it records and
redirects to the raw caller input `https://evil.example`, not to the
fallback `https://example.com`. -/
theorem C1_counterexample :
    goHandlerLegacy PoolMode.okPool [] reqPromoEvil "promo"
        (some "dest=https://evil.example") =
      (⟨302, Body.redirect "https://evil.example"⟩,
       [⟨"9.9.9.9", "UA", "promo", "https://evil.example",
         some "dest=https://evil.example"⟩]) ∧
    "https://evil.example" ≠ "https://example.com" := by
  decide

/-- C1 (amended): in the hardened redirect handler (the variant with the
Destination Validator), every redirect destination and every recorded
ClickEvent destination is the validated destination, which always parses as
an absolute URL with scheme http or https; and the scenario
`GET /go/promo?dest=https://evil.example` with allowlist `["example.com"]`
yields a 302 to `https://example.com` and records a ClickEvent with
`slug="promo"` and `destination="https://example.com"`. (The legacy
`index.js` handler has no validator and violates the original claim.) -/
theorem C1_theorem :
    (∀ allowlist raw, ∃ u, parseURL (validateDest allowlist raw) = some u ∧
      (u.protocol = "http:" ∨ u.protocol = "https:")) ∧
    (∀ cfg st r slug,
      goHandler cfg st r slug =
        (⟨302, Body.redirect
            (validateDest cfg.allowlist (jsOrString r.dest "https://example.com"))⟩,
         if cfg.pool = PoolMode.okPool then
           { st with clicks := st.clicks ++
             [⟨slug, validateDest cfg.allowlist (jsOrString r.dest "https://example.com"),
               clientIp r, jsOrString r.userAgent ""⟩] }
         else st)) ∧
    handle cfgAllowExample stInit reqPromoEvil =
      (⟨302, Body.redirect "https://example.com"⟩,
       ⟨false, [("9.9.9.9", 1)], [⟨"promo", "https://example.com", "9.9.9.9", "UA"⟩]⟩) := by
  refine ⟨?_, ?_, by decide⟩
  · intro allowlist raw
    unfold validateDest
    by_cases hv : isAllowedDest allowlist raw = true
    · rw [if_pos hv]
      exact isAllowedDest_parse hv
    · rw [if_neg hv]
      exact ⟨⟨"https:", "example.com"⟩, by decide, Or.inr rfl⟩
  · intro cfg st r slug
    unfold goHandler
    cases hcp : cfg.pool <;> rfl

/-- C2: for every input string that fails to parse as an absolute URL, or
whose scheme is not exactly http or https, the Destination Validator
returns the fixed fallback `https://example.com`; validation is total (the
parse failure, a thrown exception in the source, is caught and mapped to
the fallback). -/
theorem C2_theorem (allowlist : List String) (raw : String)
    (h : parseURL raw = none ∨
      ∃ u, parseURL raw = some u ∧ u.protocol ≠ "http:" ∧ u.protocol ≠ "https:") :
    validateDest allowlist raw = "https://example.com" := by
  have hfalse : isAllowedDest allowlist raw = false := by
    unfold isAllowedDest
    rcases h with hp | ⟨u, hp, h1, h2⟩
    · rw [hp]
    · rw [hp]
      dsimp only
      rw [if_pos ⟨h2, h1⟩]
  unfold validateDest
  rw [hfalse]
  simp

/-- C2 witness: `javascript:alert(1)` parses with a non-http(s) scheme and
is mapped to the fallback. -/
theorem C2_witness : validateDest [] "javascript:alert(1)" = "https://example.com" :=
  C2_theorem [] "javascript:alert(1)"
    (Or.inr ⟨⟨"javascript:", ""⟩, by decide, by decide, by decide⟩)

/-- Request `GET /admin/stats` carrying a wrong credential in the header. -/
def reqStatsWrong : Request :=
  ⟨"GET", "/admin/stats", none, none, none, none, some "wrong", none, "1.1.1.1", none⟩

/-- Request `GET /status`. -/
def reqStatusGet : Request :=
  ⟨"GET", "/status", none, none, none, none, none, none, "1.1.1.1", none⟩

/-- Killed process state. -/
def stKilled : ServerState := ⟨true, [], []⟩

/-- Configuration with no storage and the default admin secret. -/
def cfgNoPool : Config := ⟨"testpass", [], .noPool⟩

/-- C3 counterexample: the legacy debug route `GET /admin/_envcheck` (cited
by the claim) is an admin read route that performs no credential check at
all (its handler does not even receive the request's credential): it
answers 200, not the uniform forbidden signal, and its body varies with the
environment, so data is disclosed without Admin Authenticator success. -/
theorem C3_counterexample :
    (envcheckHandler true true).status = 200 ∧
    envcheckHandler true true ≠ envcheckHandler false false ∧
    envcheckHandler true true ≠ forbidden := by
  decide

/-- C3 (amended): the four admin query/export routes of the hardened
variant (`/admin/export/day`, `/admin/export`, `/admin/last`,
`/admin/stats`) all answer the same fixed `403 "forbidden"` response, with
the state unchanged and independently of the stored click data, whenever
the Admin Authenticator fails; the legacy debug routes `/admin/_envcheck`
and `/admin/_dbcheck` are unauthenticated (see the counterexample). -/
theorem C3_theorem (cfg : Config) (st : ServerState) (r : Request)
    (hm : r.method = "GET")
    (hp : r.path = "/admin/export/day" ∨ r.path = "/admin/export" ∨
      r.path = "/admin/last" ∨ r.path = "/admin/stats")
    (ha : adminOK r.headerAdminPass cfg.admin = false) :
    handle cfg st r = (⟨403, Body.text "forbidden"⟩, st) :=
  handle_admin_forbidden cfg st r hm hp ha

/-- C3 witness: `GET /admin/stats` with a wrong credential is answered 403
with no data disclosed. -/
theorem C3_witness :
    handle cfgAllowExample stInit reqStatsWrong = (⟨403, Body.text "forbidden"⟩, stInit) :=
  C3_theorem cfgAllowExample stInit reqStatsWrong rfl
    (Or.inr (Or.inr (Or.inr rfl))) (by decide)

/-- C4 counterexample: the claim says every non-admin request, including
`GET /status`, is rejected with 503 while the Kill Switch is engaged; but
the `/status` route is registered before the kill-switch middleware in the
source, so with the state KILLED a `GET /status` is answered normally (200,
`ok:true`), not with the service-unavailable signal. -/
theorem C4_counterexample :
    handle cfgNoPool stKilled reqStatusGet =
      (⟨200, Body.statusJson true (some 0) none⟩, stKilled) ∧
    (handle cfgNoPool stKilled reqStatusGet).1 ≠ unavailable := by
  decide

/-- C4 (amended): while KILLED, every request whose path is not an admin
path and which is not a `GET /status` (the status route is registered
before the kill gate) is rejected with the fixed 503 signal and the state
is returned unchanged — in particular the rate limiter counters and the
click log are untouched, so the rejection happens before the Rate Limiter
or Destination Validator can act; admin paths are never answered 503 in
either state; and `GET /status` is answered by the health handler even
while KILLED. -/
theorem C4_theorem :
    (∀ cfg st r, st.killed = true → strStartsWith r.path "/admin" = false →
      ¬(r.method = "GET" ∧ r.path = "/status") →
      handle cfg st r = (unavailable, st)) ∧
    (∀ cfg st r, strStartsWith r.path "/admin" = true →
      (handle cfg st r).1.status ≠ 503) ∧
    (∀ cfg st r, st.killed = true → r.method = "GET" → r.path = "/status" →
      handle cfg st r = (statusResponse cfg st, st)) := by
  refine ⟨?_, ?_, ?_⟩
  · intro cfg st r hk hpre hns
    unfold handle
    rw [if_neg hns, if_pos ⟨hk, hpre⟩]
  · intro cfg st r h
    exact handle_admin_not_503 cfg st r h
  · intro cfg st r _ hm hp
    exact handle_status cfg st r hm hp

/-- C4 witness: while killed, a redirect request is rejected 503 with the
state (hence the limiter counters and the click log) unchanged. -/
theorem C4_witness :
    handle cfgNoPool stKilled reqPromoEvil = (unavailable, stKilled) :=
  C4_theorem.1 cfgNoPool stKilled reqPromoEvil rfl (by decide) (by decide)

/-- C5 counterexample: the legacy `passFrom` (cited by the claim) prefers
the body, then the query string, and consults the `x-admin-pass` header
last — so with all three channels present the header value is NOT the one
used — and the legacy kill route accepts a query-string credential. -/
theorem C5_counterexample :
    passFrom (some "frombody") (some "fromquery") (some "fromheader") = some "frombody" ∧
    some "frombody" ≠ some "fromheader" ∧
    killLegacy "testpass" none (some "testpass") none false =
      (⟨200, Body.text "killed"⟩, true) := by
  decide

/-- C5 (amended): the hardened Admin Authenticator (`adminOK`) reads only
the dedicated `x-admin-pass` header — the whole hardened pipeline is
invariant under changes to the query-string and body credentials, so
query-string credentials are indeed unsupported there — while the legacy
`passFrom` of `index.js` supports all three channels and prefers the body,
then the query string, and only then the header. -/
theorem C5_theorem :
    (∀ cfg st r q b,
      handle cfg st { r with queryPass := q, bodyPass := b } = handle cfg st r) ∧
    (∀ b q hdr, jsTruthy b = true → passFrom b q hdr = b) ∧
    (∀ b q hdr, jsTruthy b = false → jsTruthy q = true → passFrom b q hdr = q) ∧
    (∀ b q hdr, jsTruthy b = false → jsTruthy q = false → passFrom b q hdr = hdr) := by
  refine ⟨fun cfg st r q b => handle_ignores_query_body cfg st r q b, ?_, ?_, ?_⟩
  · intro b q hdr hb
    unfold passFrom jsOrOption
    rw [if_pos hb]
  · intro b q hdr hb hq
    unfold passFrom jsOrOption
    rw [if_neg (by rw [hb]; decide), if_pos hq]
  · intro b q hdr hb hq
    unfold passFrom jsOrOption
    rw [if_neg (by rw [hb]; decide), if_neg (by rw [hq]; decide)]

/-- C5 witness: concrete instances of the channel-preference equations and
of the hardened pipeline's indifference to query/body credentials. -/
theorem C5_witness :
    passFrom (some "x") (some "y") (some "z") = some "x" ∧
    passFrom none (some "y") (some "z") = some "y" ∧
    passFrom none none (some "z") = some "z" ∧
    handle cfgNoPool stInit
        { reqStatsWrong with queryPass := some "testpass", bodyPass := some "testpass" } =
      handle cfgNoPool stInit reqStatsWrong :=
  ⟨ C5_theorem.2.1 _ _ _ (by decide),
   C5_theorem.2.2.1 _ _ _ (by decide) (by decide),
   C5_theorem.2.2.2 _ _ _ (by decide) (by decide),
   C5_theorem.1 cfgNoPool stInit reqStatsWrong (some "testpass") (some "testpass")⟩

/-- Configuration with storage configured but unreachable. -/
def cfgFailPool : Config := ⟨"testpass", [], .failPool⟩

/-- C6 counterexample: with storage configured but unreachable the count
query throws and the source's catch branch answers `{ok:false, error}` —
not the `{ok:true, clicks:0}` the claim requires for the unreachable
case (only the storage-unset case answers `ok:true, clicks:0`). -/
theorem C6_counterexample :
    (handle cfgFailPool stInit reqStatusGet).1.body =
      Body.statusJson false none (some "db error") ∧
    (handle cfgFailPool stInit reqStatusGet).1.body ≠
      Body.statusJson true (some 0) none := by
  decide

/-- C6 (amended): when storage is unset, `GET /status` answers
`{ok:true, clicks:0}`; when storage is configured but unreachable it
answers an `{ok:false, error}` JSON body (an ordinary 200 response, never
an escaping exception); and in both degraded modes `GET /go/:slug` still
answers a 302 redirect with the insert failure swallowed — the state comes
back with the click log unchanged. -/
theorem C6_theorem :
    (∀ admin allow st r, r.method = "GET" → r.path = "/status" →
      handle ⟨admin, allow, .noPool⟩ st r =
        (⟨200, Body.statusJson true (some 0) none⟩, st)) ∧
    (∀ admin allow st r, r.method = "GET" → r.path = "/status" →
      handle ⟨admin, allow, .failPool⟩ st r =
        (⟨200, Body.statusJson false none (some "db error")⟩, st)) ∧
    (∀ cfg st r slug, cfg.pool ≠ PoolMode.okPool → st.killed = false →
      r.method = "GET" → goSlug? r.path = some slug →
      rlCount st.rlHits r.reqIp + 1 ≤ goLimiterMax →
      handle cfg st r =
        (⟨302, Body.redirect
            (validateDest cfg.allowlist (jsOrString r.dest "https://example.com"))⟩,
         { st with rlHits := rlBump st.rlHits r.reqIp })) := by
  refine ⟨?_, ?_, ?_⟩
  · intro admin allow st r hm hp
    rw [handle_status _ st r hm hp]
    rfl
  · intro admin allow st r hm hp
    rw [handle_status _ st r hm hp]
    rfl
  · intro cfg st r slug hpool hk hm hs hle
    rw [handle_go cfg st r slug hk hm hs, if_neg (by omega),
      goHandler_notOk cfg _ r slug hpool]

/-- C6 witness: storage unset gives `ok:true, clicks:0`; a redirect with
failing storage still answers 302 and records nothing. -/
theorem C6_witness :
    handle (⟨"testpass", [], PoolMode.noPool⟩ : Config) stInit reqStatusGet =
      (⟨200, Body.statusJson true (some 0) none⟩, stInit) ∧
    handle cfgFailPool stInit reqPromoEvil =
      (⟨302, Body.redirect "https://evil.example"⟩,
       (⟨false, [("9.9.9.9", 1)], []⟩ : ServerState)) :=
  ⟨ C6_theorem.1 "testpass" [] stInit reqStatusGet rfl rfl,
   C6_theorem.2.2 cfgFailPool stInit reqPromoEvil "promo" (by decide) rfl rfl
     (by decide) (by decide)⟩

/-- Process state in which one identity has exhausted the window. -/
def stFull : ServerState := ⟨false, [("9.9.9.9", 120)], []⟩

/-- C7: the limiter window is 60 seconds with threshold 120; from a fresh
window every sequence of at most 120 same-identity redirect requests is
answered 302; a same-identity redirect request arriving with the window
count already at 120 (the 121st) is rejected with the rate-limit signal
and the click log is unchanged (the rejection happens in the limiter
middleware, before the Destination Validator or Click Recorder run); and
processing a sequence of n ≤ 120 such requests from a fresh window drives
the identity's window count to exactly n (so the 121st meets the
rejection premise). -/
theorem C7_theorem :
    windowMs = 60 * 1000 ∧ goLimiterMax = 120 ∧
    (∀ cfg st idv rs, st.killed = false → rlCount st.rlHits idv = 0 →
      (∀ r ∈ rs, isGoReq idv r) → rs.length ≤ 120 →
      ∀ resp ∈ handleResponses cfg st rs, resp.status = 302) ∧
    (∀ cfg st idv r, st.killed = false → isGoReq idv r →
      120 ≤ rlCount st.rlHits idv →
      (handle cfg st r).1 = rateLimited ∧
      ((handle cfg st r).2).clicks = st.clicks) ∧
    (∀ cfg st idv rs, st.killed = false → (∀ r ∈ rs, isGoReq idv r) →
      rs.length ≤ 120 → rlCount st.rlHits idv = 0 →
      rlCount (handleSeq cfg st rs).rlHits idv = rs.length ∧
      (handleSeq cfg st rs).killed = false) := by
  refine ⟨rfl, rfl, ?_, ?_, ?_⟩
  · intro cfg st idv rs hk hzero hall hlen
    exact (go_seq_invariant cfg idv rs st hk hall
      (by rw [hzero]; unfold goLimiterMax; omega)).1
  · intro cfg st idv r hk hgo hge
    obtain ⟨hm, ⟨slug, hs⟩, hip⟩ := hgo
    have hstep := handle_go cfg st r slug hk hm hs
    rw [if_pos (by rw [hip]; unfold goLimiterMax; omega)] at hstep
    rw [hstep]
    exact ⟨rfl, rfl⟩
  · intro cfg st idv rs hk hall hlen hzero
    have h := go_seq_invariant cfg idv rs st hk hall
      (by rw [hzero]; unfold goLimiterMax; omega)
    exact ⟨by rw [h.2.2, hzero]; omega, h.2.1⟩

/-- C7 witness: a one-request sequence from a fresh window is answered 302,
and a request from an identity whose window count is already 120 is
rejected with the rate-limit signal and records no ClickEvent. -/
theorem C7_witness :
    (∀ resp ∈ handleResponses cfgAllowExample stInit [reqPromoEvil], resp.status = 302) ∧
    (handle cfgAllowExample stFull reqPromoEvil).1 = rateLimited ∧
    ((handle cfgAllowExample stFull reqPromoEvil).2).clicks = stFull.clicks :=
  ⟨ C7_theorem.2.2.1 cfgAllowExample stInit "9.9.9.9" [reqPromoEvil] rfl rfl
      (by
        intro r hr
        rw [List.mem_singleton] at hr
        subst hr
        exact ⟨rfl, ⟨"promo", by decide⟩, rfl⟩)
      (by decide),
   ( C7_theorem.2.2.2.1 cfgAllowExample stFull "9.9.9.9" reqPromoEvil rfl
      ⟨rfl, ⟨"promo", by decide⟩, rfl⟩ (by decide)).1,
   ( C7_theorem.2.2.2.1 cfgAllowExample stFull "9.9.9.9" reqPromoEvil rfl
      ⟨rfl, ⟨"promo", by decide⟩, rfl⟩ (by decide)).2⟩

/-- C8 counterexample: the claimed equivalence "returns the input unchanged
if and only if the hostname is in the non-empty set" fails at the input
that is itself the fallback URL: `https://example.com` parses as a valid
https URL whose host is absent from the non-empty allowlist
`["allowed.com"]`, so the validator returns the fallback — which is equal
to the input, making the validator return the input unchanged while the
membership test is false. -/
theorem C8_counterexample :
    parseURL "https://example.com" = some ⟨"https:", "example.com"⟩ ∧
    (["allowed.com"] : List String).contains (lowerStr "example.com") = false ∧
    validateDest ["allowed.com"] "https://example.com" = "https://example.com" ∧
    ¬((validateDest ["allowed.com"] "https://example.com" = "https://example.com") ↔
      (["allowed.com"] : List String).contains (lowerStr "example.com") = true) := by
  decide

/-- C8 (amended): for every syntactically valid http(s) URL, the validator
returns the input unchanged when the AllowedHostSet is empty; with a
non-empty set it returns the input unchanged when the (lower-cased)
hostname is a member and returns the fallback URL otherwise — the fallback
coincides with the input when the input is the fallback URL itself, so the
"input unchanged iff member" equivalence holds for every input other than
the fallback URL. (The set entries are lower-cased at configuration parse
time, so membership of the lower-cased hostname is the case-insensitive
comparison of the claim.) -/
theorem C8_theorem (allowlist : List String) (raw : String) (u : JSURL)
    (hp : parseURL raw = some u)
    (hs : u.protocol = "http:" ∨ u.protocol = "https:") :
    (allowlist = [] → validateDest allowlist raw = raw) ∧
    (allowlist.contains (lowerStr u.hostname) = true →
      validateDest allowlist raw = raw) ∧
    (allowlist ≠ [] → allowlist.contains (lowerStr u.hostname) = false →
      validateDest allowlist raw = "https://example.com") ∧
    (allowlist ≠ [] → raw ≠ "https://example.com" →
      (validateDest allowlist raw = raw ↔
        allowlist.contains (lowerStr u.hostname) = true)) := by
  have hnotscheme : ¬(u.protocol ≠ "https:" ∧ u.protocol ≠ "http:") :=
    fun hc => hs.elim (fun e => hc.2 e) (fun e => hc.1 e)
  have hred : isAllowedDest allowlist raw =
      (if allowlist.length = 0 then true
       else allowlist.contains (lowerStr u.hostname)) := by
    unfold isAllowedDest
    rw [hp]
    dsimp only
    rw [if_neg hnotscheme]
  have hmem : allowlist.contains (lowerStr u.hostname) = true →
      validateDest allowlist raw = raw := by
    intro hc
    have htrue : isAllowedDest allowlist raw = true := by
      rw [hred]
      by_cases hl : allowlist.length = 0
      · rw [if_pos hl]
      · rw [if_neg hl]
        exact hc
    unfold validateDest
    rw [htrue]
    rfl
  have hnomem : allowlist ≠ [] → allowlist.contains (lowerStr u.hostname) = false →
      validateDest allowlist raw = "https://example.com" := by
    intro hne hc
    have hfalse : isAllowedDest allowlist raw = false := by
      rw [hred, if_neg (fun h => hne (List.length_eq_zero.mp h))]
      exact hc
    unfold validateDest
    rw [hfalse]
    rfl
  refine ⟨?_, hmem, hnomem, ?_⟩
  · intro he
    have htrue : isAllowedDest allowlist raw = true := by
      rw [hred, if_pos (by rw [he]; rfl)]
    unfold validateDest
    rw [htrue]
    rfl
  · intro hne hraw
    constructor
    · intro heq
      cases hcb : allowlist.contains (lowerStr u.hostname) with
      | true => rfl
      | false => exact absurd (heq.symm.trans (hnomem hne hcb)) hraw
    · exact hmem

/-- C8 witness: with allowlist `["example.com"]` the validator returns
`http://Example.COM/path` unchanged (case-insensitive host membership),
and with an empty allowlist it returns a valid URL unchanged. -/
theorem C8_witness :
    validateDest ["example.com"] "http://Example.COM/path" = "http://Example.COM/path" ∧
    validateDest [] "https://evil.example" = "https://evil.example" :=
  ⟨( C8_theorem ["example.com"] "http://Example.COM/path" ⟨"http:", "example.com"⟩
      (by decide) (Or.inl rfl)).2.1 (by decide),
   ( C8_theorem [] "https://evil.example" ⟨"https:", "evil.example"⟩
      (by decide) (Or.inr rfl)).1 rfl⟩

/-- C9: a kill with a valid credential drives the state to KILLED and an
unkill to LIVE, from any starting state; a kill/unkill attempt whose
credential is missing or wrong answers the forbidden signal and returns
the state unchanged; and repeated authenticated kill (resp. unkill)
applications are idempotent on the state. -/
theorem C9_theorem :
    (∀ cfg st r, r.method = "POST" → r.path = "/admin/kill" →
      r.headerAdminPass = some cfg.admin →
      handle cfg st r = (⟨200, Body.text "killed"⟩, { st with killed := true })) ∧
    (∀ cfg st r, r.method = "POST" → r.path = "/admin/unkill" →
      r.headerAdminPass = some cfg.admin →
      handle cfg st r = (⟨200, Body.text "un-killed"⟩, { st with killed := false })) ∧
    (∀ cfg st r, r.method = "POST" →
      (r.path = "/admin/kill" ∨ r.path = "/admin/unkill") →
      adminOK r.headerAdminPass cfg.admin = false →
      handle cfg st r = (⟨403, Body.text "forbidden"⟩, st)) ∧
    (∀ cfg st r, r.method = "POST" → r.path = "/admin/kill" →
      r.headerAdminPass = some cfg.admin →
      (handle cfg (handle cfg st r).2 r).2 = (handle cfg st r).2) ∧
    (∀ cfg st r, r.method = "POST" → r.path = "/admin/unkill" →
      r.headerAdminPass = some cfg.admin →
      (handle cfg (handle cfg st r).2 r).2 = (handle cfg st r).2) := by
  have hkill : ∀ (cfg : Config) (st : ServerState) (r : Request),
      r.method = "POST" → r.path = "/admin/kill" →
      r.headerAdminPass = some cfg.admin →
      handle cfg st r = (⟨200, Body.text "killed"⟩, { st with killed := true }) := by
    intro cfg st r hm hp hh
    rw [handle_kill cfg st r hm hp,
      if_pos (show adminOK r.headerAdminPass cfg.admin = true by
        rw [hh]; simp [adminOK])]
  have hunkill : ∀ (cfg : Config) (st : ServerState) (r : Request),
      r.method = "POST" → r.path = "/admin/unkill" →
      r.headerAdminPass = some cfg.admin →
      handle cfg st r = (⟨200, Body.text "un-killed"⟩, { st with killed := false }) := by
    intro cfg st r hm hp hh
    rw [handle_unkill cfg st r hm hp,
      if_pos (show adminOK r.headerAdminPass cfg.admin = true by
        rw [hh]; simp [adminOK])]
  refine ⟨hkill, hunkill, ?_, ?_, ?_⟩
  · intro cfg st r hm hp ha
    rcases hp with hp | hp
    · rw [handle_kill cfg st r hm hp, if_neg (by rw [ha]; decide)]
      rfl
    · rw [handle_unkill cfg st r hm hp, if_neg (by rw [ha]; decide)]
      rfl
  · intro cfg st r hm hp hh
    rw [hkill cfg st r hm hp hh]
    show (handle cfg { st with killed := true } r).2 = { st with killed := true }
    rw [hkill cfg { st with killed := true } r hm hp hh]
  · intro cfg st r hm hp hh
    rw [hunkill cfg st r hm hp hh]
    show (handle cfg { st with killed := false } r).2 = { st with killed := false }
    rw [hunkill cfg { st with killed := false } r hm hp hh]

/-- Authenticated kill request (header credential). -/
def reqKillOk : Request :=
  ⟨"POST", "/admin/kill", none, none, none, none, some "testpass", none, "1.1.1.1", none⟩

/-- Authenticated unkill request (header credential). -/
def reqUnkillOk : Request :=
  ⟨"POST", "/admin/unkill", none, none, none, none, some "testpass", none, "1.1.1.1", none⟩

/-- Kill request carrying no credential. -/
def reqKillBad : Request :=
  ⟨"POST", "/admin/kill", none, none, none, none, none, none, "1.1.1.1", none⟩

/-- C9 witness: a valid kill from the live state kills, a valid unkill from
the killed state revives, and an uncredentialed kill is forbidden with the
state unchanged. -/
theorem C9_witness :
    handle cfgNoPool stInit reqKillOk =
      (⟨200, Body.text "killed"⟩, { stInit with killed := true }) ∧
    handle cfgNoPool stKilled reqUnkillOk =
      (⟨200, Body.text "un-killed"⟩, { stKilled with killed := false }) ∧
    handle cfgNoPool stInit reqKillBad = (⟨403, Body.text "forbidden"⟩, stInit) :=
  ⟨ C9_theorem.1 cfgNoPool stInit reqKillOk rfl rfl rfl,
   C9_theorem.2.1 cfgNoPool stKilled reqUnkillOk rfl rfl rfl,
   C9_theorem.2.2.1 cfgNoPool stInit reqKillBad rfl (Or.inl rfl) (by decide)⟩

/-- C10: with the `FOB_ADMIN_PASS` environment variable absent, the admin
credential defaults to the fixed string `"testpass"`, and the Admin
Authenticator then accepts exactly the credential `"testpass"` (rather
than rejecting everything). -/
theorem C10_theorem :
    ADMIN none = "testpass" ∧
    (∀ p : Option String, adminOK p (ADMIN none) = true ↔ p = some "testpass") := by
  refine ⟨rfl, ?_⟩
  intro p
  simp [adminOK, ADMIN, jsOrString]

/-- C10 witness: the defaulted authenticator accepts `"testpass"`. -/
theorem C10_witness : adminOK (some "testpass") (ADMIN none) = true :=
  ( C10_theorem.2 (some "testpass")).mpr rfl

end TinyFob
